import Mathlib

/-!
Shallow embedding of the conversation-turn pipeline of the voice-agent
single-page application (the `processUserMessage` handler and its helper
functions `extractTopics`, `detectMood`, `getContextAwareResponse`, the
system-prompt construction, and the React state it updates: the
`conversations` history list, the `conversationContext` rolling topic list
and the `sessionProgress` counter).

Modelling conventions:
* JavaScript strings are Lean `String`s; `text.toLowerCase()` is `lowerStr`,
  `a.includes(b)` (substring test) is `strContains a b`, `s.trim()` is
  `trimStr s`.
* `Array.from(new Set(xs))` (insertion-order de-duplication keeping the
  first occurrence) is `uniqueFirst`; `xs.slice(-n)` is `sliceLast n`;
  `xs.slice(0, n)` is `List.take n`.
* React functional state updates are explicit state passing on `AppState`.
  Inside one invocation of `processUserMessage` the identifier
  `conversationContext` refers to the render-closure value captured before
  the `setConversationContext` update; the embedding therefore reads the
  pre-update context (`s.conversationContext`) for the system prompt and
  for the fallback reply.
* The remote chat-completion call is an `Option String` parameter:
  `some reply` models a 2xx response whose payload parses to an assistant
  message, `none` models every failure routed to the catch block.
* `Date.now()` is an explicit `now : Nat` parameter.
* The webhook notification and the localStorage user-profile write-back are
  external collaborators with no influence on the claims and are omitted.
-/

/-- Mood labels returned by `detectMood`. -/
inductive Mood where
  | positive
  | negative
  | neutral
deriving DecidableEq

/-- Checks that the first character list is an initial segment of the second. -/
def startsWithChars : List Char → List Char → Bool
  | [], _ => true
  | _ :: _, [] => false
  | p :: ps, c :: cs => decide (p = c) && startsWithChars ps cs

/-- Checks that the first character list occurs contiguously inside the second. -/
def occursChars : List Char → List Char → Bool
  | p, [] => startsWithChars p []
  | p, c :: cs => startsWithChars p (c :: cs) || occursChars p cs

/-- Model of JavaScript `s.includes(pat)`: substring containment. -/
def strContains (s pat : String) : Bool :=
  occursChars pat.data s.data

/-- Model of JavaScript `text.toLowerCase()`. -/
def lowerStr (s : String) : String :=
  ⟨s.data.map Char.toLower⟩

/-- Model of JavaScript `s.trim()`: strip whitespace from both ends. -/
def trimStr (s : String) : String :=
  ⟨((s.data.dropWhile Char.isWhitespace).reverse.dropWhile Char.isWhitespace).reverse⟩

/-- Positive word list of `detectMood` (verbatim from the source). -/
def positiveWords : List String :=
  ["happy", "good", "great", "excited", "wonderful", "amazing", "love",
   "excellent", "fantastic", "perfect", "joy", "pleased", "better", "improved"]

/-- Negative word list of `detectMood` (verbatim from the source). -/
def negativeWords : List String :=
  ["sad", "bad", "angry", "upset", "frustrated", "hate", "terrible", "awful",
   "horrible", "annoying", "disappointed", "stress", "anxious", "worried"]

/-- Embedding of `detectMood`: count case-insensitive substring matches of the
input against the two fixed word lists; the strictly greater count wins and a
tie yields `neutral`. -/
def detectMood (text : String) : Mood :=
  let lowerText := lowerStr text
  let positiveCount := (positiveWords.filter (fun word => strContains lowerText word)).length
  let negativeCount := (negativeWords.filter (fun word => strContains lowerText word)).length
  if positiveCount > negativeCount then Mood.positive
  else if negativeCount > positiveCount then Mood.negative
  else Mood.neutral

/-- Embedding of `extractTopics`: the eight keyword-group checks in source
order, each pushing its tag when some member keyword occurs in the lowercased
text, then `slice(0, 3)`. -/
def extractTopics (text : String) : List String :=
  let lowerText := lowerStr text
  let topics : List String := []
  let topics := if strContains lowerText "work" || strContains lowerText "job" || strContains lowerText "career" then topics ++ ["work"] else topics
  let topics := if strContains lowerText "family" || strContains lowerText "parent" || strContains lowerText "child" then topics ++ ["family"] else topics
  let topics := if strContains lowerText "friend" || strContains lowerText "social" || strContains lowerText "lonely" then topics ++ ["social"] else topics
  let topics := if strContains lowerText "health" || strContains lowerText "sick" || strContains lowerText "pain" then topics ++ ["health"] else topics
  let topics := if strContains lowerText "stress" || strContains lowerText "anxiety" || strContains lowerText "worry" then topics ++ ["stress"] else topics
  let topics := if strContains lowerText "sleep" || strContains lowerText "tired" || strContains lowerText "energy" then topics ++ ["sleep"] else topics
  let topics := if strContains lowerText "happy" || strContains lowerText "excited" || strContains lowerText "good" then topics ++ ["positive"] else topics
  let topics := if strContains lowerText "sad" || strContains lowerText "upset" || strContains lowerText "bad" then topics ++ ["negative"] else topics
  topics.take 3

/-- The eight keyword groups of `extractTopics`, in source order, as tag and
member-keyword pairs. -/
def topicGroups : List (String × List String) :=
  [("work", ["work", "job", "career"]),
   ("family", ["family", "parent", "child"]),
   ("social", ["friend", "social", "lonely"]),
   ("health", ["health", "sick", "pain"]),
   ("stress", ["stress", "anxiety", "worry"]),
   ("sleep", ["sleep", "tired", "energy"]),
   ("positive", ["happy", "excited", "good"]),
   ("negative", ["sad", "upset", "bad"])]

/-- Topic extraction as the specification words it: keep, in group-definition
order, the tag of each group with a member keyword occurring as a
case-insensitive substring, and return at most the first 3 tags found. -/
def specExtractTopics (text : String) : List String :=
  ((topicGroups.filter
      (fun g => g.2.any (fun word => strContains (lowerStr text) word))).map Prod.fst).take 3

/-- Model of JavaScript `xs.slice(-n)` for positive `n`: the last `n` entries
(the whole list when it is shorter). -/
def sliceLast {α : Type} (n : Nat) (l : List α) : List α :=
  l.drop (l.length - n)

/-- One insertion step of iteration over a JavaScript `Set`: keep the
accumulator when the element was already seen, otherwise append it. -/
def addUnique (acc : List String) (a : String) : List String :=
  if a ∈ acc then acc else acc ++ [a]

/-- Model of `Array.from(new Set(l))`: de-duplication keeping the first
occurrence of each element, in insertion order. -/
def uniqueFirst (l : List String) : List String :=
  l.foldl addUnique []

/-- Embedding of the local helper `getContextAwareResponse` defined inside
`processUserMessage`: the rule-based fallback reply, translated clause by
clause with the early returns as nested conditionals. -/
def getContextAwareResponse (userMessage : String) (context : List String) : String :=
  let lowerMessage := lowerStr userMessage
  if !context.isEmpty && (strContains lowerMessage "remember" || strContains lowerMessage "before") then
    "I remember we talked about " ++ String.intercalate ", " (sliceLast 3 context) ++
      ". I\x27m here to continue supporting you with those topics. How are things going with that now?"
  else if !context.isEmpty && (context.contains "stress" && (strContains lowerMessage "better" || strContains lowerMessage "improve")) then
    "I\x27m glad to hear you\x27re working on managing stress. Remember the techniques we discussed? How are they helping you?"
  else if !context.isEmpty && (context.contains "work" && strContains lowerMessage "today") then
    "Since we\x27ve talked about work before, I\x27d love to hear how your day went. Any specific challenges or successes?"
  else if strContains lowerMessage "hello" || strContains lowerMessage "hi" || strContains lowerMessage "hey" then
    if !context.isEmpty then
      "Welcome back! I remember our previous conversation. How have you been since we last spoke?"
    else
      "Hello! It\x27s great to meet you. I\x27m here to listen and support you. What would you like to talk about today?"
  else if strContains lowerMessage "how are you" then
    "I\x27m functioning well, thank you for asking! I\x27m here to chat with you. What\x27s on your mind today?"
  else if strContains lowerMessage "thank" then
    "You\x27re very welcome! I\x27m glad I could help. Remember, I\x27m always here to listen. Is there anything else you\x27d like to discuss?"
  else if strContains lowerMessage "sad" || strContains lowerMessage "upset" || strContains lowerMessage "unhappy" then
    "I\x27m sorry to hear you\x27re feeling this way. It takes courage to share these feelings. Would you like to talk more about what\x27s bothering you?"
  else if strContains lowerMessage "happy" || strContains lowerMessage "excited" || strContains lowerMessage "good" then
    "That\x27s wonderful to hear! I\x27m glad you\x27re feeling positive. What\x27s been making you feel this way? I\x27d love to hear more!"
  else if !context.isEmpty then
    "Thank you for sharing that. Building on our previous conversation about " ++
      String.intercalate " and " (sliceLast 2 context) ++
      ", I\x27m here to support you further. What else would you like to discuss?"
  else
    "Thank you for sharing that with me. I\x27m here to listen and help however I can. What else is on your mind?"

/-- Embedding of the system-prompt template: the fixed empathetic-assistant
instruction with the context clause inserted when the rolling topic list is
non-empty. -/
def systemPrompt (context : List String) : String :=
  "You are a helpful and empathetic AI assistant. " ++
    (if context.length > 0 then
      "The user has previously discussed: " ++ String.intercalate ", " context ++
        ". Use this context to provide more personalized responses. "
    else "") ++
    "Analyze the user\x27s mood from their message and respond appropriately. Keep responses conversational and under 100 words. Be engaging, supportive, and remember previous context when relevant."

/-- One history entry (`ConversationEntry` interface); `Date.now()` and
`new Date()` are modelled by the `timestamp : Nat` parameter. -/
structure ConversationEntry where
  id : String
  timestamp : Nat
  userMessage : String
  aiResponse : String
  mood : Mood
  sentiment : Int
  topics : List String
deriving DecidableEq

/-- The React state read and written by `processUserMessage`: the
`conversations` history, the `conversationContext` rolling topic list and the
`sessionProgress` counter. -/
structure AppState where
  conversations : List ConversationEntry
  conversationContext : List String
  sessionProgress : Nat
deriving DecidableEq

/-- Result of one `processUserMessage` invocation: the updated state, the text
handed to `speakText` (none when the guard rejected the message), and the
system prompt sent to the remote completion (none when the guard rejected). -/
structure ProcessResult where
  state : AppState
  spoken : Option String
  promptUsed : Option String
deriving DecidableEq

/-- The conversation-entry record built identically (up to the reply text) in
the success branch and in the catch branch of `processUserMessage`. -/
def mkEntry (now : Nat) (message aiResponse : String) : ConversationEntry :=
  let mood := detectMood message
  { id := toString now
    timestamp := now
    userMessage := message
    aiResponse := aiResponse
    mood := mood
    sentiment := if mood = Mood.positive then 1 else if mood = Mood.negative then -1 else 0
    topics := extractTopics message }

/-- Embedding of `processUserMessage`. The guard mirrors
`if (!message.trim() || message.length < 2) return;` (note: the length check
is on the raw, untrimmed string). The session-progress increment and the
context merge happen before the remote attempt; both the system prompt and the
fallback reply read the render-closure value of the context, captured before
that merge. `remote = some reply` is the success path
(`[newEntry, ...prev.slice(0, 49)]`), `remote = none` the catch path
(`[newEntry, ...prev]`, uncapped). -/
def processUserMessage (now : Nat) (message : String) (remote : Option String)
    (s : AppState) : ProcessResult :=
  if trimStr message = "" ∨ message.length < 2 then
    { state := s, spoken := none, promptUsed := none }
  else
    let sessionProgress := min (s.sessionProgress + 10) 100
    let newTopics := extractTopics message
    let conversationContext := sliceLast 10 (uniqueFirst (s.conversationContext ++ newTopics))
    let context := s.conversationContext
    let prompt := systemPrompt context
    match remote with
    | some aiResponse =>
      { state :=
          { conversations := mkEntry now message aiResponse :: s.conversations.take 49
            conversationContext := conversationContext
            sessionProgress := sessionProgress }
        spoken := some aiResponse
        promptUsed := some prompt }
    | none =>
      let fallbackResponse := getContextAwareResponse message context
      { state :=
          { conversations := mkEntry now message fallbackResponse :: s.conversations
            conversationContext := conversationContext
            sessionProgress := sessionProgress }
        spoken := some fallbackResponse
        promptUsed := some prompt }

/-- Sequential processing of a list of turns (timestamp, user message, remote
reply), each on the remote-success path. -/
def processTurns (turns : List (Nat × String × String)) (s : AppState) : AppState :=
  turns.foldl (fun st t => (processUserMessage t.1 t.2.1 (some t.2.2) st).state) s

/-- The eight keyword groups again, flattened to a tag with its exactly three
member keywords, so that the keyword test of each group can be written as the
same three-way disjunction as in the source. -/
def topicGroups4 : List (String × String × String × String) :=
  [("work", "work", "job", "career"),
   ("family", "family", "parent", "child"),
   ("social", "friend", "social", "lonely"),
   ("health", "health", "sick", "pain"),
   ("stress", "stress", "anxiety", "worry"),
   ("sleep", "sleep", "tired", "energy"),
   ("positive", "happy", "excited", "good"),
   ("negative", "sad", "upset", "bad")]

/-- Recursive form of the topic-accumulation chain of `extractTopics`;
`extractTopics text` is definitionally `(buildTopics text topicGroups4 []).take 3`. -/
def buildTopics (text : String) :
    List (String × String × String × String) → List String → List String
  | [], acc => acc
  | g :: gs, acc =>
      buildTopics text gs
        (if strContains (lowerStr text) g.2.1 || strContains (lowerStr text) g.2.2.1
            || strContains (lowerStr text) g.2.2.2
         then acc ++ [g.1] else acc)

/-- The generic reply produced by `getContextAwareResponse` when no other rule
fires and no context exists. -/
def fallbackGenericReply : String :=
  "Thank you for sharing that with me. I\x27m here to listen and help however I can. What else is on your mind?"

/-! ### Properties of the de-duplication and truncation helpers -/

lemma mem_foldl_addUnique (l : List String) :
    ∀ (acc : List String) (x : String),
      x ∈ l.foldl addUnique acc ↔ x ∈ acc ∨ x ∈ l := by
  induction l with
  | nil => intro acc x; simp
  | cons a l ih =>
    intro acc x
    rw [List.foldl_cons, ih]
    unfold addUnique
    by_cases ha : a ∈ acc
    · rw [if_pos ha]
      constructor
      · rintro (hx | hx)
        · exact Or.inl hx
        · exact Or.inr (List.mem_cons_of_mem _ hx)
      · rintro (hx | hx)
        · exact Or.inl hx
        · rcases List.mem_cons.mp hx with rfl | hx
          · exact Or.inl ha
          · exact Or.inr hx
    · rw [if_neg ha]
      simp only [List.mem_append, List.mem_singleton, List.mem_cons]
      tauto

lemma nodup_foldl_addUnique (l : List String) :
    ∀ acc : List String, acc.Nodup → (l.foldl addUnique acc).Nodup := by
  induction l with
  | nil => intro acc h; simpa using h
  | cons a l ih =>
    intro acc h
    rw [List.foldl_cons]
    apply ih
    unfold addUnique
    by_cases ha : a ∈ acc
    · rwa [if_pos ha]
    · rw [if_neg ha]
      simp [List.nodup_append, h, ha]

lemma mem_uniqueFirst (l : List String) (x : String) :
    x ∈ uniqueFirst l ↔ x ∈ l := by
  unfold uniqueFirst
  rw [mem_foldl_addUnique]
  simp

lemma nodup_uniqueFirst (l : List String) : (uniqueFirst l).Nodup :=
  nodup_foldl_addUnique l [] List.nodup_nil

lemma addUnique_of_mem {acc : List String} {a : String} (h : a ∈ acc) :
    addUnique acc a = acc := by
  unfold addUnique
  rw [if_pos h]

lemma uniqueFirst_append_mem {l : List String} {a : String} (ha : a ∈ l) :
    uniqueFirst (l ++ [a]) = uniqueFirst l := by
  unfold uniqueFirst
  rw [List.foldl_append]
  show addUnique (l.foldl addUnique []) a = l.foldl addUnique []
  exact addUnique_of_mem ((mem_foldl_addUnique l [] a).mpr (Or.inr ha))

lemma sliceLast_length_le {α : Type} (n : Nat) (l : List α) :
    (sliceLast n l).length ≤ n := by
  unfold sliceLast
  rw [List.length_drop]
  omega

lemma sliceLast_nodup {α : Type} (n : Nat) {l : List α} (h : l.Nodup) :
    (sliceLast n l).Nodup :=
  (List.drop_sublist _ _).nodup h

/-! ### The history cap on the remote-success path -/

lemma take_cons_take {α : Type} (e : α) (l : List α) (k : Nat) (hk : k ≤ 50) :
    (e :: l.take 49).take k = (e :: l).take k := by
  cases k with
  | zero => rfl
  | succ k' =>
    rw [List.take_succ_cons, List.take_succ_cons, List.take_take]
    have : min k' 49 = k' := by omega
    rw [this]

lemma take50_step {α : Type} (A : List α) (e : α) (l : List α) :
    (A ++ e :: l.take 49).take 50 = (A ++ e :: l).take 50 := by
  rw [List.take_append_eq_append_take, List.take_append_eq_append_take]
  congr 1
  exact take_cons_take e l _ (by omega)

lemma process_success_conversations (now : Nat) (m reply : String) (s : AppState)
    (hv : ¬(trimStr m = "" ∨ m.length < 2)) :
    (processUserMessage now m (some reply) s).state.conversations
      = mkEntry now m reply :: s.conversations.take 49 := by
  unfold processUserMessage
  rw [if_neg hv]

lemma processTurns_cons (t : Nat × String × String) (ts : List (Nat × String × String))
    (s : AppState) :
    processTurns (t :: ts) s
      = processTurns ts (processUserMessage t.1 t.2.1 (some t.2.2) s).state :=
  rfl

lemma processTurns_closed (turns : List (Nat × String × String)) (s : AppState)
    (hne : turns ≠ [])
    (hv : ∀ t ∈ turns, ¬(trimStr t.2.1 = "" ∨ t.2.1.length < 2)) :
    (processTurns turns s).conversations
      = ((turns.map (fun t => mkEntry t.1 t.2.1 t.2.2)).reverse ++ s.conversations).take 50 := by
  induction turns generalizing s with
  | nil => exact absurd rfl hne
  | cons t ts ih =>
    rw [processTurns_cons]
    have hstep := process_success_conversations t.1 t.2.1 t.2.2 s (hv t (List.mem_cons_self t ts))
    by_cases hts : ts = []
    · subst hts
      show (processUserMessage t.1 t.2.1 (some t.2.2) s).state.conversations = _
      rw [hstep]
      simp [List.take_succ_cons]
    · rw [ih _ hts (fun t' ht' => hv t' (List.mem_cons_of_mem _ ht'))]
      rw [hstep]
      rw [take50_step]
      simp [List.append_assoc]

/-- C2: on the remote-success path each new turn is prepended and the history
is capped at 50: for every starting history and every sequence of 51
guard-passing remote-path turns, the resulting history has length exactly 50
and consists of the 50 most recent turns, most-recent-first. -/
theorem C2_history_cap (s : AppState) (turns : List (Nat × String × String))
    (h51 : turns.length = 51)
    (hv : ∀ t ∈ turns, ¬(trimStr t.2.1 = "" ∨ t.2.1.length < 2)) :
    (processTurns turns s).conversations.length = 50 ∧
    (processTurns turns s).conversations
      = ((turns.drop 1).map (fun t => mkEntry t.1 t.2.1 t.2.2)).reverse := by
  have hne : turns ≠ [] := by
    intro h
    rw [h] at h51
    simp at h51
  have hcf := processTurns_closed turns s hne hv
  refine ⟨?_, ?_⟩
  · rw [hcf, List.length_take]
    simp [h51]
    omega
  · rw [hcf, List.take_append_of_le_length (by simp [h51]), List.take_reverse]
    simp [h51]

theorem C2_history_cap_witness :
    (processTurns (List.replicate 51 (0, "hello there", "ok"))
        { conversations := [], conversationContext := [], sessionProgress := 0 }
      ).conversations.length = 50 :=
  (C2_history_cap _ _ (by simp)
    (by
      intro t ht
      rw [List.eq_of_mem_replicate ht]
      decide)).1

/-- C3: on the remote-failure (fallback) path the new turn is prepended
without the 50-entry cap: the history always grows by exactly one. -/
theorem C3_fallback_uncapped (now : Nat) (message : String) (s : AppState)
    (hv : ¬(trimStr message = "" ∨ message.length < 2)) :
    (processUserMessage now message none s).state.conversations
      = mkEntry now message (getContextAwareResponse message s.conversationContext)
          :: s.conversations ∧
    (processUserMessage now message none s).state.conversations.length
      = s.conversations.length + 1 := by
  unfold processUserMessage
  rw [if_neg hv]
  exact ⟨rfl, rfl⟩

theorem C3_fallback_uncapped_witness :
    (processUserMessage 7 "hello there" none
        { conversations := List.replicate 50 (mkEntry 0 "hi" "ok")
          conversationContext := []
          sessionProgress := 0 }).state.conversations.length
      = (List.replicate 50 (mkEntry 0 "hi" "ok")).length + 1 :=
  (C3_fallback_uncapped 7 "hello there" _ (by decide)).2

/-- C8 counterexample: the entry guard checks the raw length, not the trimmed
length, so the input `" a "` (trimmed length 1) is processed and a turn is
appended, refuting the claim that every input with trimmed length below 2 is a
no-op. -/
theorem C8_trim_guard_counterexample :
    (trimStr " a ").length < 2 ∧
    (processUserMessage 0 " a " none
        { conversations := [], conversationContext := [], sessionProgress := 0 }
      ).state.conversations.length = 1 := by
  exact ⟨by decide, rfl⟩

/-- C8 amended: processing is a no-op exactly for the inputs the source guard
rejects, namely those whose trimmed text is empty or whose raw length is below
2: state is unchanged, nothing is spoken and no prompt is built. -/
theorem C8_noop_on_reject (now : Nat) (message : String) (remote : Option String)
    (s : AppState)
    (hr : trimStr message = "" ∨ message.length < 2) :
    processUserMessage now message remote s
      = { state := s, spoken := none, promptUsed := none } := by
  unfold processUserMessage
  rw [if_pos hr]

theorem C8_noop_on_reject_witness :
    processUserMessage 3 "x" (some "yo")
        { conversations := [], conversationContext := ["work"], sessionProgress := 40 }
      = { state := { conversations := [], conversationContext := ["work"], sessionProgress := 40 }
          spoken := none
          promptUsed := none } :=
  C8_noop_on_reject 3 "x" (some "yo") _ (Or.inr (by decide))

/-- C9: for every guard-passing message, the session-progress increment
`min(prev + 10, 100)` and the merge of the extracted topics into the rolling
topic list happen before the remote attempt, hence are the same on the
remote-success path and on the fallback path (the result does not depend on
`remote`). -/
theorem C9_pre_remote_updates (now : Nat) (message : String) (remote : Option String)
    (s : AppState)
    (hv : ¬(trimStr message = "" ∨ message.length < 2)) :
    (processUserMessage now message remote s).state.sessionProgress
      = min (s.sessionProgress + 10) 100 ∧
    (processUserMessage now message remote s).state.conversationContext
      = sliceLast 10 (uniqueFirst (s.conversationContext ++ extractTopics message)) := by
  unfold processUserMessage
  rw [if_neg hv]
  cases remote <;> exact ⟨rfl, rfl⟩

theorem C9_pre_remote_updates_witness :
    (processUserMessage 2 "feeling good" (some "nice")
        { conversations := [], conversationContext := ["work"], sessionProgress := 40 }
      ).state.sessionProgress = min (40 + 10) 100 ∧
    (processUserMessage 2 "feeling good" (some "nice")
        { conversations := [], conversationContext := ["work"], sessionProgress := 40 }
      ).state.conversationContext
      = sliceLast 10 (uniqueFirst (["work"] ++ extractTopics "feeling good")) :=
  C9_pre_remote_updates 2 "feeling good" (some "nice") _ (by decide)

/-- C10: the system prompt and the context-aware fallback reply of a turn are
computed from the rolling context as it stood before that turn merged its own
topics (the render-closure value), so a message never influences its own
prompt or fallback reply through its topics, only those of later turns. -/
theorem C10_stale_context (now : Nat) (message : String) (remote : Option String)
    (s : AppState)
    (hv : ¬(trimStr message = "" ∨ message.length < 2)) :
    (processUserMessage now message remote s).promptUsed
      = some (systemPrompt s.conversationContext) ∧
    (processUserMessage now message none s).spoken
      = some (getContextAwareResponse message s.conversationContext) := by
  constructor
  · unfold processUserMessage
    rw [if_neg hv]
    cases remote <;> rfl
  · unfold processUserMessage
    rw [if_neg hv]

theorem C10_stale_context_witness :
    (processUserMessage 4 "work is stressful" (some "ok")
        { conversations := [], conversationContext := ["sleep"], sessionProgress := 0 }
      ).promptUsed = some (systemPrompt ["sleep"]) ∧
    (processUserMessage 4 "work is stressful" none
        { conversations := [], conversationContext := ["sleep"], sessionProgress := 0 }
      ).spoken = some (getContextAwareResponse "work is stressful" ["sleep"]) :=
  C10_stale_context 4 "work is stressful" (some "ok") _ (by decide)

/-- C6: after every processed turn the rolling topic list equals the
first-occurrence de-duplication of the old list concatenated with the turn
topics, truncated to the last 10 entries; consequently it always has at most
10 entries, all distinct, and appending an already-present topic never moves
it (the de-duplicated list is unchanged). -/
theorem C6_recentTopics_invariant (now : Nat) (message : String) (remote : Option String)
    (s : AppState)
    (hv : ¬(trimStr message = "" ∨ message.length < 2)) :
    (processUserMessage now message remote s).state.conversationContext
      = sliceLast 10 (uniqueFirst (s.conversationContext ++ extractTopics message)) ∧
    (processUserMessage now message remote s).state.conversationContext.length ≤ 10 ∧
    (processUserMessage now message remote s).state.conversationContext.Nodup ∧
    (∀ (l : List String) (a : String), a ∈ l → uniqueFirst (l ++ [a]) = uniqueFirst l) := by
  have hctx : (processUserMessage now message remote s).state.conversationContext
      = sliceLast 10 (uniqueFirst (s.conversationContext ++ extractTopics message)) := by
    unfold processUserMessage
    rw [if_neg hv]
    cases remote <;> rfl
  refine ⟨hctx, ?_, ?_, fun l a ha => uniqueFirst_append_mem ha⟩
  · rw [hctx]
    exact sliceLast_length_le _ _
  · rw [hctx]
    exact sliceLast_nodup _ (nodup_uniqueFirst _)

theorem C6_recentTopics_invariant_witness :
    (processUserMessage 9 "stressed about work and family" none
        { conversations := []
          conversationContext := ["sleep", "work"]
          sessionProgress := 0 }).state.conversationContext
      = sliceLast 10 (uniqueFirst (["sleep", "work"]
          ++ extractTopics "stressed about work and family")) ∧
    (processUserMessage 9 "stressed about work and family" none
        { conversations := []
          conversationContext := ["sleep", "work"]
          sessionProgress := 0 }).state.conversationContext.length ≤ 10 := by
  have h := C6_recentTopics_invariant 9 "stressed about work and family" none
    { conversations := [], conversationContext := ["sleep", "work"], sessionProgress := 0 }
    (by decide)
  exact ⟨h.1, h.2.1⟩

/-! ### Mood characterization -/

lemma detectMood_if_form (text : String) :
    detectMood text =
      (if (negativeWords.filter (fun word => strContains (lowerStr text) word)).length
            < (positiveWords.filter (fun word => strContains (lowerStr text) word)).length
       then Mood.positive
       else if (positiveWords.filter (fun word => strContains (lowerStr text) word)).length
            < (negativeWords.filter (fun word => strContains (lowerStr text) word)).length
       then Mood.negative
       else Mood.neutral) := rfl

/-- C4: `detectMood` counts case-insensitive substring matches of the input
against the fixed positive and negative word lists and returns the label with
the strictly greater count, with ties (including zero matches on both sides)
yielding `neutral`; in particular the two worked examples of the
specification hold. -/
theorem C4_detectMood_characterization :
    detectMood "I am happy and excited" = Mood.positive ∧
    detectMood "I am sad and angry" = Mood.negative ∧
    ∀ text : String,
      (detectMood text = Mood.positive ↔
        (negativeWords.filter (fun word => strContains (lowerStr text) word)).length
          < (positiveWords.filter (fun word => strContains (lowerStr text) word)).length) ∧
      (detectMood text = Mood.negative ↔
        (positiveWords.filter (fun word => strContains (lowerStr text) word)).length
          < (negativeWords.filter (fun word => strContains (lowerStr text) word)).length) ∧
      (detectMood text = Mood.neutral ↔
        (positiveWords.filter (fun word => strContains (lowerStr text) word)).length
          = (negativeWords.filter (fun word => strContains (lowerStr text) word)).length) := by
  refine ⟨by decide, by decide, ?_⟩
  intro text
  rw [detectMood_if_form]
  rcases Nat.lt_trichotomy
    ((positiveWords.filter (fun word => strContains (lowerStr text) word)).length)
    ((negativeWords.filter (fun word => strContains (lowerStr text) word)).length) with h | h | h
  · rw [if_neg (by omega), if_pos h]
    exact ⟨⟨fun hh => Mood.noConfusion hh, fun hh => absurd hh (by omega)⟩,
           ⟨fun _ => h, fun _ => rfl⟩,
           ⟨fun hh => Mood.noConfusion hh, fun hh => absurd hh (by omega)⟩⟩
  · rw [if_neg (by omega), if_neg (by omega)]
    exact ⟨⟨fun hh => Mood.noConfusion hh, fun hh => absurd hh (by omega)⟩,
           ⟨fun hh => Mood.noConfusion hh, fun hh => absurd hh (by omega)⟩,
           ⟨fun _ => h, fun _ => rfl⟩⟩
  · rw [if_pos h]
    exact ⟨⟨fun _ => h, fun _ => rfl⟩,
           ⟨fun hh => Mood.noConfusion hh, fun hh => absurd hh (by omega)⟩,
           ⟨fun hh => Mood.noConfusion hh, fun hh => absurd hh (by omega)⟩⟩

/-! ### Topic extraction characterization -/

lemma buildTopics_filter (text : String) :
    ∀ (gs : List (String × String × String × String)) (acc : List String),
      buildTopics text gs acc
        = acc ++ ((gs.map (fun g => (g.1, [g.2.1, g.2.2.1, g.2.2.2]))).filter
            (fun g => g.2.any (fun w => strContains (lowerStr text) w))).map Prod.fst := by
  intro gs
  induction gs with
  | nil =>
    intro acc
    simp [buildTopics]
  | cons g gs ih =>
    intro acc
    rw [show buildTopics text (g :: gs) acc
        = buildTopics text gs
            (if strContains (lowerStr text) g.2.1 || strContains (lowerStr text) g.2.2.1
                || strContains (lowerStr text) g.2.2.2
             then acc ++ [g.1] else acc) from rfl]
    rw [ih]
    simp only [List.map_cons, List.filter_cons, List.any_cons, List.any_nil,
      Bool.or_false, Bool.or_assoc]
    by_cases hc : (strContains (lowerStr text) g.2.1
        || (strContains (lowerStr text) g.2.2.1 || strContains (lowerStr text) g.2.2.2)) = true
    · rw [if_pos hc, if_pos hc]
      simp
    · rw [if_neg hc, if_neg hc]

lemma extractTopics_eq_spec (text : String) : extractTopics text = specExtractTopics text := by
  have h0 : extractTopics text = (buildTopics text topicGroups4 []).take 3 := rfl
  rw [h0, buildTopics_filter]
  rfl

lemma extractTopics_len (text : String) : (extractTopics text).length ≤ 3 := by
  unfold extractTopics
  exact List.length_take_le _ _

/-- C5: `extractTopics` returns at most the first 3 tags found, checking the 8
keyword groups in the fixed source order and appending a tag exactly when some
member keyword occurs as a case-insensitive substring (it agrees with the
group-filter formulation of the specification); the worked example yields
`["work", "stress"]`, so it includes `work` and `stress` with `work` first and
length at most 3. -/
theorem C5_extractTopics_props :
    (∀ text : String, extractTopics text = specExtractTopics text) ∧
    (∀ text : String, (extractTopics text).length ≤ 3) ∧
    extractTopics "I\x27m stressed about work today" = ["work", "stress"] :=
  ⟨extractTopics_eq_spec, extractTopics_len, by decide⟩

/-! ### Lowercasing preserves lowercase keyword occurrences -/

lemma startsWithChars_map (f : Char → Char) :
    ∀ (p l : List Char), startsWithChars p l = true →
      startsWithChars (p.map f) (l.map f) = true := by
  intro p
  induction p with
  | nil => intro l _; rfl
  | cons x ps ih =>
    intro l h
    cases l with
    | nil => exact absurd h (by simp [startsWithChars])
    | cons c cs =>
      simp only [startsWithChars, Bool.and_eq_true, decide_eq_true_eq] at h
      simp only [List.map_cons, startsWithChars, Bool.and_eq_true, decide_eq_true_eq]
      exact ⟨by rw [h.1], ih cs h.2⟩

lemma occursChars_map (f : Char → Char) (p : List Char) :
    ∀ l : List Char, occursChars p l = true →
      occursChars (p.map f) (l.map f) = true := by
  intro l
  induction l with
  | nil =>
    intro h
    cases p with
    | nil => rfl
    | cons x ps => exact absurd h (by simp [occursChars, startsWithChars])
  | cons c cs ih =>
    intro h
    simp only [occursChars, Bool.or_eq_true] at h
    simp only [List.map_cons, occursChars, Bool.or_eq_true]
    rcases h with h | h
    · exact Or.inl (by
        have := startsWithChars_map f p (c :: cs) h
        simpa using this)
    · exact Or.inr (ih h)

lemma strContains_lower {m w : String}
    (hw : w.data.map Char.toLower = w.data)
    (h : strContains m w = true) :
    strContains (lowerStr m) w = true := by
  have hocc := occursChars_map Char.toLower w.data m.data h
  rw [hw] at hocc
  exact hocc

/-- C7: for every non-empty context and every message containing "remember" or
"before", the fallback generator deterministically returns the reply that
cites the last 3 context topics verbatim, joined with ", ". -/
theorem C7_fallback_remember (message : String) (context : List String)
    (hc : context ≠ [])
    (hm : strContains message "remember" = true ∨ strContains message "before" = true) :
    getContextAwareResponse message context
      = "I remember we talked about " ++ String.intercalate ", " (sliceLast 3 context) ++
          ". I\x27m here to continue supporting you with those topics. How are things going with that now?" := by
  have hne : context.isEmpty = false := by
    cases context with
    | nil => exact absurd rfl hc
    | cons a l => rfl
  rcases hm with h | h
  · have h2 := strContains_lower (by decide) h
    simp [getContextAwareResponse, hne, h2]
  · have h2 := strContains_lower (by decide) h
    simp [getContextAwareResponse, hne, h2]

theorem C7_fallback_remember_witness :
    getContextAwareResponse "Do you remember that?" ["work", "stress", "sleep", "family"]
      = "I remember we talked about " ++
          String.intercalate ", " (sliceLast 3 ["work", "stress", "sleep", "family"]) ++
          ". I\x27m here to continue supporting you with those topics. How are things going with that now?" :=
  C7_fallback_remember _ _ (by decide) (Or.inl (by decide))

/-- C1 counterexample: in the end-to-end fallback scenario for the message
"I feel great today" the produced turn has topics `[]`, not `["positive"]`:
"great" is a mood keyword, but the positive topic group only checks "happy",
"excited" and "good". -/
theorem C1_topics_counterexample :
    (processUserMessage 0 "I feel great today" none
        { conversations := [], conversationContext := [], sessionProgress := 0 }
      ).state.conversations.map (fun e => e.topics) = [[]] ∧
    ([] : List String) ≠ ["positive"] :=
  ⟨by decide, by decide⟩

/-- C1 amended: in the end-to-end scenario where the user message is
"I feel great today" and the remote completion fails, the fallback path
produces a turn with mood `positive` and topics `[]` (no topic keyword
occurs), prepends the turn to the history, hands the fallback reply text to
speech output, and raises `sessionProgress` by 10. -/
theorem C1_fallback_scenario (now : Nat) (h : List ConversationEntry) (p : Nat)
    (hp : p ≤ 90) :
    (processUserMessage now "I feel great today" none
        { conversations := h, conversationContext := [], sessionProgress := p }
      ).state.conversations
      = mkEntry now "I feel great today" fallbackGenericReply :: h ∧
    (mkEntry now "I feel great today" fallbackGenericReply).mood = Mood.positive ∧
    (mkEntry now "I feel great today" fallbackGenericReply).topics = [] ∧
    (processUserMessage now "I feel great today" none
        { conversations := h, conversationContext := [], sessionProgress := p }
      ).spoken = some fallbackGenericReply ∧
    (processUserMessage now "I feel great today" none
        { conversations := h, conversationContext := [], sessionProgress := p }
      ).state.sessionProgress = p + 10 := by
  have hv : ¬(trimStr "I feel great today" = "" ∨ ("I feel great today".length < 2)) := by decide
  have hfb : getContextAwareResponse "I feel great today" ([] : List String)
      = fallbackGenericReply := by decide
  refine ⟨?_, ?_, ?_, ?_, ?_⟩
  · unfold processUserMessage
    rw [if_neg hv]
    show mkEntry now "I feel great today" (getContextAwareResponse "I feel great today" []) :: h
        = mkEntry now "I feel great today" fallbackGenericReply :: h
    rw [hfb]
  · show detectMood "I feel great today" = Mood.positive
    decide
  · show extractTopics "I feel great today" = []
    decide
  · unfold processUserMessage
    rw [if_neg hv]
    show some (getContextAwareResponse "I feel great today" []) = some fallbackGenericReply
    rw [hfb]
  · unfold processUserMessage
    rw [if_neg hv]
    show min (p + 10) 100 = p + 10
    omega

theorem C1_fallback_scenario_witness :
    (processUserMessage 5 "I feel great today" none
        { conversations := [], conversationContext := [], sessionProgress := 0 }
      ).spoken = some fallbackGenericReply ∧
    (processUserMessage 5 "I feel great today" none
        { conversations := [], conversationContext := [], sessionProgress := 0 }
      ).state.sessionProgress = 0 + 10 := by
  have h := C1_fallback_scenario 5 [] 0 (by decide)
  exact ⟨h.2.2.2.1, h.2.2.2.2⟩
